import Mathlib

/-!
Verification of the message classification and extraction engine of the
eugenbot repository (src/advanced_monitor.py and src/telegram_bot_parser.py).

The Python code is shallowly embedded: each `re.search` call on a fixed
pattern is translated into an executable Lean matcher over `List Char`
with Python's leftmost-search, greedy semantics specialised to that
pattern (the patterns used here have no backtracking ambiguity between a
greedy character-class run and the literal that follows it, because the
class never contains the literal's first character; where that needs an
argument it is given in the doc comment of the matcher).  Character
classes model the ASCII fragment of Python's `\w` and `\s`.

Stateful code (the dedup cache of `process_message`) becomes explicit
state passing.  The cache is a Python `set` of `hash(...)` values, i.e. a
finite set of integers with an *unspecified* iteration order; the
embedding keeps the set's elements as a duplicate-free `List Int` in
insertion order and passes the iteration order that `list(...)` would
produce as an explicit argument `enum`, constrained to be a permutation
of the set's elements.  `hash` itself is an oracle parameter.
-/

set_option maxRecDepth 4096

/-! ### Character classes (ASCII models of Python's regex classes) -/

/-- ASCII model of Python regex `\w`: letters, digits, underscore. -/
def isWordChar (c : Char) : Bool :=
  c.isAlpha || c.isDigit || c = '_'

/-- ASCII model of Python regex `\s`. -/
def isSpaceChar (c : Char) : Bool :=
  c = ' ' || c = '\t' || c = '\n' || c = '\r' || c = '\x0b' || c = '\x0c'

/-- The class `[a-fA-F0-9x]` used in the gmgn/dexscreener link patterns. -/
def isHexXChar (c : Char) : Bool :=
  c.isDigit || ('a' ≤ c && c ≤ 'f') || ('A' ≤ c && c ≤ 'F') || c = 'x'

/-- The base58 class `[1-9A-HJ-NP-Za-km-z]` of the Solana-mint pattern
(digits and letters without `0`, `O`, `I`, `l`). -/
def isBase58Char (c : Char) : Bool :=
  ('1' ≤ c && c ≤ '9') || ('A' ≤ c && c ≤ 'H') || ('J' ≤ c && c ≤ 'N') ||
  ('P' ≤ c && c ≤ 'Z') || ('a' ≤ c && c ≤ 'k') || ('m' ≤ c && c ≤ 'z')

/-- The class `[\d.]` of the ticker patterns. -/
def isNumDotChar (c : Char) : Bool :=
  c.isDigit || c = '.'

/-- The class `\d`. -/
def isDigitChar (c : Char) : Bool :=
  c.isDigit

/-- ASCII model of Python `str.lower()` (character-by-character, which
keeps it kernel-reducible). -/
def pyLower (s : String) : String :=
  (s.toList.map Char.toLower).asString

/-- ASCII model of Python `str.upper()`. -/
def pyUpper (s : String) : String :=
  (s.toList.map Char.toUpper).asString

/-! ### Matcher combinators -/

/-- Expect the literal `l` (case sensitive); return the rest of the input. -/
def litM : List Char → List Char → Option (List Char)
  | [], s => some s
  | _ :: _, [] => none
  | c :: l, d :: s => if d = c then litM l s else none

/-- Expect the literal `l` up to ASCII case (Python `re.IGNORECASE`). -/
def litCIM : List Char → List Char → Option (List Char)
  | [], s => some s
  | _ :: _, [] => none
  | c :: l, d :: s => if d.toLower = c.toLower then litCIM l s else none

/-- Greedy nonempty run of characters of class `p` (regex `X+`): returns
the run and the rest, or `none` if the first character is not in `p`. -/
def spanPosM (p : Char → Bool) (s : List Char) : Option (List Char × List Char) :=
  let a := s.takeWhile p
  if a.isEmpty then none else some (a, s.dropWhile p)

/-- Regex `\s+` followed by `f` (fused so that greedy whitespace runs are
handled in one step). -/
def afterWs (f : List Char → Option β) (s : List Char) : Option β :=
  match spanPosM isSpaceChar s with
  | none => none
  | some (_, rest) => f rest

/-- Regex `\s*` (greedy, possibly empty). -/
def skipWs (s : List Char) : List Char :=
  s.dropWhile isSpaceChar

/-- Two-way literal alternation `(a|b)` returning the matched literal and
the rest; Python tries the left branch first. -/
def dirAlt (a b : List Char) (s : List Char) : Option (List Char × List Char) :=
  match litM a s with
  | some r => some (a, r)
  | none =>
    match litM b s with
    | some r => some (b, r)
    | none => none

/-- `re.search`: try the matcher at every position, leftmost success wins
(including the empty position at the end of the string, where all the
matchers below fail). -/
def searchL (f : List Char → Option β) : List Char → Option β
  | [] => f []
  | c :: cs =>
    match f (c :: cs) with
    | some r => some r
    | none => searchL f cs

/-! ### The contract locator of `AdvancedBotMonitor.extract_contract_info` -/

/-- Result dict of `extract_contract_info` (and of the `dex_info` dicts of
`telegram_bot_parser.py`): keys `type`, `chain`, `contract`, `url`. -/
structure ContractInfo where
  type : String
  chain : String
  contract : String
  url : String
deriving DecidableEq, Repr

/-- The f-string `https://gmgn.ai/{chain}/token/{contract}`. -/
def gmgnUrl (chain contract : String) : String :=
  "https://gmgn.ai/" ++ chain ++ "/token/" ++ contract

/-- The `chain_mapping` dict of `extract_contract_info` (identical in all
three occurrences). -/
def chain_mapping : List (String × String) :=
  [("ethereum", "eth"), ("arbitrum", "arb"), ("bsc", "bsc"),
   ("polygon", "polygon"), ("base", "base"), ("solana", "sol"),
   ("avalanche", "avax"), ("sol", "sol"), ("bep20", "bsc")]

/-- `chain_mapping.get(chain.lower(), chain.lower())`: the chain
normalizer. Unknown chains pass through lower-cased. -/
def normalizeChain (chain : String) : String :=
  ((chain_mapping.lookup (pyLower chain)).getD (pyLower chain))

/-- One attempt of `re.search(r'\b([1-9A-HJ-NP-Za-km-z]{32,44})\b', message)`
at a position, given the previous character (`none` at the start of the
string).  Derivation from the regex: the leading `\b` requires the
previous character to be a non-word character (base58 characters are all
word characters); the greedy `{32,44}` repetition takes the maximal
base58 run `r`; every proper prefix of `r` ends just before another
base58 (hence word) character, so the trailing `\b` can only hold for the
full run, which must have length between 32 and 44 and be followed by a
non-word character or the end of the string. -/
def trySolMintAt (prev : Option Char) (s : List Char) : Option String :=
  if (match prev with | none => true | some p => !isWordChar p) then
    match spanPosM isBase58Char s with
    | some (run, rest) =>
      if 32 ≤ run.length && run.length ≤ 44 &&
         (match rest with | [] => true | c :: _ => !isWordChar c) then
        some run.asString
      else none
    | none => none
  else none

/-- Leftmost search for the Solana-mint pattern, tracking the previous
character for the word boundary. -/
def solMintScan : Option Char → List Char → Option String
  | _, [] => none
  | prev, c :: rest =>
    match trySolMintAt prev (c :: rest) with
    | some r => some r
    | none => solMintScan (some c) rest

/-- `solana_mint_match`: the first base58 token of length 32 to 44 with
word boundaries on both sides. -/
def solanaMint (m : String) : Option String :=
  solMintScan none m.toList

/-- One position of `re.search(r'(#?SOLANA|\bsolana\b|\bSOL\b)', message,
re.IGNORECASE)`.  Only existence of a match is used by the code.  The
branch `#?SOLANA` with the optional `#` and no boundary is equivalent (for
existence) to the substring `solana` case-insensitively, which also
subsumes `\bsolana\b`; the remaining branch is a standalone `sol` with
word boundaries on both sides. -/
def solMarkerAt (prev : Option Char) (s : List Char) : Bool :=
  (litCIM "solana".toList s).isSome ||
  ((match prev with | none => true | some p => !isWordChar p) &&
   (match litCIM "sol".toList s with
    | some rest =>
      (match rest with | [] => true | c :: _ => !isWordChar c)
    | none => false))

/-- Scan for the Solana marker, tracking the previous character. -/
def solMarkerScan : Option Char → List Char → Bool
  | _, [] => false
  | prev, c :: rest => solMarkerAt prev (c :: rest) || solMarkerScan (some c) rest

/-- `re.search(r'(#?SOLANA|\bsolana\b|\bSOL\b)', message, re.IGNORECASE)`
as a Boolean. -/
def hasSolMarker (m : String) : Bool :=
  solMarkerScan none m.toList

/-- One position of
`re.search(r'gmgn\.ai/(\w+)/token/([a-fA-F0-9x]+|[1-9A-HJ-NP-Za-km-z]+)', message)`.
`\w` cannot match `/`, so the greedy chain run needs no backtracking; the
alternation tries the hex-like class first and only falls back to the
base58 class when no hex-like character follows `/token/`. -/
def tryGmgnAt (s : List Char) : Option (String × String) :=
  match litM "gmgn.ai/".toList s with
  | none => none
  | some s =>
    match spanPosM isWordChar s with
    | none => none
    | some (chain, s) =>
      match litM "/token/".toList s with
      | none => none
      | some s =>
        match spanPosM isHexXChar s with
        | some (hex, _) => some (chain.asString, hex.asString)
        | none =>
          match spanPosM isBase58Char s with
          | some (b58, _) => some (chain.asString, b58.asString)
          | none => none

/-- `gmgn_match` of `extract_contract_info`. -/
def searchGmgn (m : String) : Option (String × String) :=
  searchL tryGmgnAt m.toList

/-- One position of `re.search(r'CA:\s*([^\s\n]+)', message)` (`[^\s\n]`
equals "not whitespace" because `\n` is whitespace). -/
def tryCAAt (s : List Char) : Option String :=
  match litM "CA:".toList s with
  | none => none
  | some s =>
    match spanPosM (fun c => !isSpaceChar c) (skipWs s) with
    | some (tok, _) => some tok.asString
    | none => none

/-- `ca_match` of `extract_contract_info`. -/
def searchCA (m : String) : Option String :=
  searchL tryCAAt m.toList

/-- One position of `re.search(r'Chain:\s*(\w+)', message)`. -/
def tryChainAt (s : List Char) : Option String :=
  match litM "Chain:".toList s with
  | none => none
  | some s =>
    match spanPosM isWordChar (skipWs s) with
    | some (w, _) => some w.asString
    | none => none

/-- `chain_match` (the explicit `Chain:` field). -/
def searchChainField (m : String) : Option String :=
  searchL tryChainAt m.toList

/-- One position of `re.search(r'dexscreener\.com/(\w+)/', message)`. -/
def tryDexChainAt (s : List Char) : Option String :=
  match litM "dexscreener.com/".toList s with
  | none => none
  | some s =>
    match spanPosM isWordChar s with
    | none => none
    | some (w, s) =>
      match litM "/".toList s with
      | none => none
      | some _ => some w.asString

/-- The dexscreener-link chain fallback of the labeled-field strategies. -/
def searchDexChain (m : String) : Option String :=
  searchL tryDexChainAt m.toList

/-- One position of `re.search(r'contract:\s*([^\s\n]+)', message,
re.IGNORECASE)`. -/
def tryContractAt (s : List Char) : Option String :=
  match litCIM "contract:".toList s with
  | none => none
  | some s =>
    match spanPosM (fun c => !isSpaceChar c) (skipWs s) with
    | some (tok, _) => some tok.asString
    | none => none

/-- `contract_match` of `extract_contract_info`. -/
def searchContract (m : String) : Option String :=
  searchL tryContractAt m.toList

/-- One position of `re.search(r'network:\s*(\w+)', message, re.IGNORECASE)`. -/
def tryNetworkAt (s : List Char) : Option String :=
  match litCIM "network:".toList s with
  | none => none
  | some s =>
    match spanPosM isWordChar (skipWs s) with
    | some (w, _) => some w.asString
    | none => none

/-- `network_match` of `extract_contract_info`. -/
def searchNetwork (m : String) : Option String :=
  searchL tryNetworkAt m.toList

/-- One position of `re.search(r'dexscreener\.com/(\w+)/([^)]+)', message)`
(`[^)]` matches any character except `)`, including whitespace). -/
def tryDexFullAt (s : List Char) : Option (String × String) :=
  match litM "dexscreener.com/".toList s with
  | none => none
  | some s =>
    match spanPosM isWordChar s with
    | none => none
    | some (chain, s) =>
      match litM "/".toList s with
      | none => none
      | some s =>
        match spanPosM (fun c => c ≠ ')') s with
        | some (tok, _) => some (chain.asString, tok.asString)
        | none => none

/-- `dexscreener_match` of `extract_contract_info` (strategy 4). -/
def searchDexFull (m : String) : Option (String × String) :=
  searchL tryDexFullAt m.toList

/-- Chain resolution of the `CA:` branch: an explicit `Chain:` field,
else a `dexscreener.com/<chain>/` link, else `'ethereum'`; each matched
group is lower-cased as in the code. -/
def caChain (m : String) : String :=
  match searchChainField m with
  | some ch => pyLower ch
  | none =>
    match searchDexChain m with
    | some ch => pyLower ch
    | none => "ethereum"

/-- Chain resolution of the `contract:` branch: a case-insensitive
`network:` field, else the dexscreener-link fallback, else `'ethereum'`. -/
def contractChain (m : String) : String :=
  match searchNetwork m with
  | some ch => pyLower ch
  | none =>
    match searchDexChain m with
    | some ch => pyLower ch
    | none => "ethereum"

/-- `AdvancedBotMonitor.extract_contract_info`: the five detection
strategies in the order of the source (Solana mint, gmgn link, `CA:`
field, `contract:` field, dexscreener link), first success wins.  The
`try` block of the source has no raising operation on string input, so
the function is total into `Option`. -/
def extract_contract_info (m : String) : Option ContractInfo :=
  match solanaMint m, hasSolMarker m with
  | some contract, true =>
    some ⟨"gmgn", "sol", contract, gmgnUrl "sol" contract⟩
  | _, _ =>
    match searchGmgn m with
    | some (chain, contract) =>
      some ⟨"gmgn", chain, contract, gmgnUrl chain contract⟩
    | none =>
      match searchCA m with
      | some contract =>
        some ⟨"contract", normalizeChain (caChain m), contract,
              gmgnUrl (normalizeChain (caChain m)) contract⟩
      | none =>
        match searchContract m with
        | some contract =>
          some ⟨"contract", normalizeChain (contractChain m), contract,
                gmgnUrl (normalizeChain (contractChain m)) contract⟩
        | none =>
          match searchDexFull m with
          | some (chain, contract) =>
            some ⟨"dexscreener", normalizeChain chain, contract,
                  gmgnUrl (normalizeChain chain) contract⟩
          | none => none

/-! ### Ticker extraction of `AdvancedBotMonitor.extract_ticker_data`

The per-bot patterns live in `config.json`, which is not part of the
repository, so `re.search` on those configured patterns is abstracted as
an oracle `re : pattern → message → Option (list of groups)`; index
`i - 1` of the list is capture group `i`.  Everything else (the config
lookup, the group accesses that can raise `IndexError`, the per-bot group
layout, the blacklist check and the `try`/`except` that maps any raised
exception to `None`) is translated from the source. -/

/-- The configuration state read by `extract_ticker_data` and
`is_ticker_blacklisted`: the `monitored_bots` name-to-pattern table and
the blacklist (`self.blacklist_enabled`, `self.blacklisted_tickers`). -/
structure BotsConfig where
  monitoredBots : List (String × String)
  blacklistEnabled : Bool
  blacklistedTickers : List String

/-- `match.group(i)`: raises `IndexError` when the match has fewer than
`i` groups. -/
def pyGroup (gs : List String) (i : Nat) : Except String String :=
  match gs.get? (i - 1) with
  | some s => Except.ok s
  | none => Except.error "IndexError"

/-- The per-bot field layout of `extract_ticker_data` (which capture
group is the ticker and which the direction), exactly as the
`if`/`elif` chain of the source; `kormushka_mexc` is the `else` branch
and has no direction. -/
def tickerDirectionOf (botName : String) (gs : List String) : Except String (String × Option String) :=
  if botName = "pumply_futures_dex" then
    match pyGroup gs 1 with
    | Except.error e => Except.error e
    | Except.ok d =>
      match pyGroup gs 2 with
      | Except.error e => Except.error e
      | Except.ok t => Except.ok (t, some d)
  else if botName = "mexcTracker" then
    match pyGroup gs 1 with
    | Except.error e => Except.error e
    | Except.ok t =>
      match pyGroup gs 2 with
      | Except.error e => Except.error e
      | Except.ok d => Except.ok (t, some d)
  else if botName = "MexcDexSpreadTracker" then
    match pyGroup gs 2 with
    | Except.error e => Except.error e
    | Except.ok d =>
      match pyGroup gs 3 with
      | Except.error e => Except.error e
      | Except.ok t => Except.ok (t, some d)
  else
    match pyGroup gs 1 with
    | Except.error e => Except.error e
    | Except.ok t => Except.ok (t, none)

/-- `AdvancedBotMonitor.is_ticker_blacklisted`: enabled and the
upper-cased ticker is in the blacklist set (the statistics update is a
side effect not modelled). -/
def is_ticker_blacklisted (cfg : BotsConfig) (ticker : String) : Bool :=
  cfg.blacklistEnabled && cfg.blacklistedTickers.contains (pyUpper ticker)

/-- Result dict of `extract_ticker_data` (the wall-clock `timestamp` key
is omitted). -/
structure TickerData where
  ticker : String
  direction : Option String
  dexInfo : Option ContractInfo
  botName : String
deriving DecidableEq, Repr

/-- The body of the `try` block of `extract_ticker_data`, with the two
raising operations made explicit: the `config['monitored_bots'][bot_name]`
lookup (`KeyError`) and the `group(i)` accesses (`IndexError`). -/
def extractTickerDataE (re : String → String → Option (List String))
    (cfg : BotsConfig) (message botName : String) : Except String (Option TickerData) :=
  match cfg.monitoredBots.lookup botName with
  | none => Except.error "KeyError"
  | some pattern =>
    match re pattern message with
    | none => Except.ok none
    | some gs =>
      match tickerDirectionOf botName gs with
      | Except.error e => Except.error e
      | Except.ok (ticker, direction) =>
        if is_ticker_blacklisted cfg ticker then
          Except.ok none
        else
          Except.ok (some ⟨ticker, direction, extract_contract_info message, botName⟩)

/-- `AdvancedBotMonitor.extract_ticker_data`: the `except` clause maps any
exception raised by the body to `None` (after logging). -/
def extract_ticker_data (re : String → String → Option (List String))
    (cfg : BotsConfig) (message botName : String) : Option TickerData :=
  match extractTickerDataE re cfg message botName with
  | Except.ok r => r
  | Except.error _ => none

/-! ### The dedup cache step of `AdvancedBotMonitor.process_message`

`processed_messages` is a Python `set` of `hash(...)` integers.  The
embedding keeps its elements as a duplicate-free `List Int` (in insertion
order, which is bookkeeping only: membership is what the set provides)
and receives the iteration order that `list(self.processed_messages)`
would produce as an explicit argument `enum` — CPython sets are unordered,
so any permutation of the elements is an admissible iteration order.
`hash` is an oracle `String → Int`. -/

/-- The f-string fingerprint of `process_message`:
`f"{bot_name}_{message_id}_{message[:100]}"`. -/
def fingerprintStr (botName : String) (messageId : Int) (message : String) : String :=
  botName ++ "_" ++ toString messageId ++ "_" ++ (message.toList.take 100).asString

/-- `self.max_cache_size` as set in `AdvancedBotMonitor.__init__`. -/
def max_cache_size : Nat := 1000

/-- Python slice `lst[-k:]` for a natural `k`: the whole list when
`k = 0`, otherwise the last `k` elements. -/
def pyTakeLast (l : List α) (k : Nat) : List α :=
  if k = 0 then l else l.drop (l.length - k)

/-- Outcome of the dedup step: `duplicate = true` models the early
`return`, and `cache` is the value of `self.processed_messages`
afterwards. -/
structure DedupStepOut where
  duplicate : Bool
  cache : List Int
deriving DecidableEq, Repr

/-- The dedup filter step of `process_message` (lines 402-410): membership
test, `add`, and the half-flush
`set(list(self.processed_messages)[-self.max_cache_size//2:])` when the
size exceeds `maxC`.  `enum` is the iteration order used by `list(...)`
(only relevant when the flush runs). -/
def dedupStep (cache : List Int) (maxC : Nat) (fp : Int) (enum : List Int) : DedupStepOut :=
  if fp ∈ cache then ⟨true, cache⟩
  else if (cache ++ [fp]).length > maxC then ⟨false, pyTakeLast enum (maxC / 2)⟩
  else ⟨false, cache ++ [fp]⟩

/-! ### `TelegramBotParser` of `src/telegram_bot_parser.py`

Its three ticker patterns and two link patterns are literal in the
source, so they are embedded concretely. -/

/-- One position of the `mexc_tracker` pattern
`(\w+)\s+\|\s+[\d.]+%\s+\|\s+(Long|Short)`.  Every greedy class run is
followed by a literal outside the class, so the match is deterministic. -/
def tryMexcAt (s : List Char) : Option (String × String) :=
  (spanPosM isWordChar s).bind fun ts =>
  (afterWs (litM "|".toList) ts.2).bind fun s1 =>
  (afterWs (spanPosM isNumDotChar) s1).bind fun ns =>
  (litM "%".toList ns.2).bind fun s2 =>
  (afterWs (litM "|".toList) s2).bind fun s3 =>
  (afterWs (dirAlt "Long".toList "Short".toList) s3).map fun dr =>
  (ts.1.asString, dr.1.asString)

/-- One position of the `kormushka` pattern
`(\w+)\s+\+[\d.]+%\s+in\s+\d+\s+secs!`. -/
def tryKormAt (s : List Char) : Option String :=
  (spanPosM isWordChar s).bind fun ts =>
  (afterWs (litM "+".toList) ts.2).bind fun s1 =>
  (spanPosM isNumDotChar s1).bind fun ns =>
  (litM "%".toList ns.2).bind fun s2 =>
  (afterWs (litM "in".toList) s2).bind fun s3 =>
  (afterWs (spanPosM isDigitChar) s3).bind fun ds =>
  (afterWs (litM "secs!".toList) ds.2).map fun _ =>
  ts.1.asString

/-- One position of the `pumply` pattern
`🔻\s+(SHORT|LONG)\s+\$(\w+)\s+\+[\d.]+%\s+on\s+MEXC`. -/
def tryPumplyAt (s : List Char) : Option (String × String) :=
  (litM "🔻".toList s).bind fun s0 =>
  (afterWs (dirAlt "SHORT".toList "LONG".toList) s0).bind fun dr =>
  (afterWs (litM "$".toList) dr.2).bind fun s1 =>
  (spanPosM isWordChar s1).bind fun ts =>
  (afterWs (litM "+".toList) ts.2).bind fun s2 =>
  (spanPosM isNumDotChar s2).bind fun ns =>
  (litM "%".toList ns.2).bind fun s3 =>
  (afterWs (litM "on".toList) s3).bind fun s4 =>
  (afterWs (litM "MEXC".toList) s4).map fun _ =>
  (dr.1.asString, ts.1.asString)

/-- One position of the parser's dexscreener link pattern
`dexscreener\.com/(\w+)/([a-fA-F0-9x]+)`. -/
def tryDexPAt (s : List Char) : Option (String × String) :=
  (litM "dexscreener.com/".toList s).bind fun s0 =>
  (spanPosM isWordChar s0).bind fun cs =>
  (litM "/".toList cs.2).bind fun s1 =>
  (spanPosM isHexXChar s1).map fun hs =>
  (cs.1.asString, hs.1.asString)

/-- One position of the parser's gmgn link pattern
`gmgn\.ai/(\w+)/token/([a-fA-F0-9x]+)`. -/
def tryGmgnPAt (s : List Char) : Option (String × String) :=
  (litM "gmgn.ai/".toList s).bind fun s0 =>
  (spanPosM isWordChar s0).bind fun cs =>
  (litM "/token/".toList cs.2).bind fun s1 =>
  (spanPosM isHexXChar s1).map fun hs =>
  (cs.1.asString, hs.1.asString)

/-- Result dict of the three `parse_*_message` methods. -/
structure TickerResult where
  ticker : String
  direction : Option String
  dexInfo : Option ContractInfo
  source : String
deriving DecidableEq, Repr

/-- `TelegramBotParser.parse_mexc_tracker_message`. -/
def parse_mexc_tracker_message (m : String) : Option TickerResult :=
  match searchL tryMexcAt m.toList with
  | none => none
  | some (ticker, direction) =>
    let dex : Option ContractInfo :=
      match searchL tryDexPAt m.toList with
      | some (chain, contract) =>
        some ⟨"dexscreener", chain, contract,
              "https://dexscreener.com/" ++ chain ++ "/" ++ contract⟩
      | none => none
    some ⟨ticker, some direction, dex, "mexc_tracker"⟩

/-- `TelegramBotParser.parse_kormushka_message` (no direction in this
format). -/
def parse_kormushka_message (m : String) : Option TickerResult :=
  match searchL tryKormAt m.toList with
  | none => none
  | some ticker =>
    let dex : Option ContractInfo :=
      match searchL tryGmgnPAt m.toList with
      | some (chain, contract) =>
        some ⟨"gmgn", chain, contract, gmgnUrl chain contract⟩
      | none => none
    some ⟨ticker, none, dex, "kormushka"⟩

/-- `TelegramBotParser.parse_pumply_message`. -/
def parse_pumply_message (m : String) : Option TickerResult :=
  match searchL tryPumplyAt m.toList with
  | none => none
  | some (direction, ticker) =>
    let dex : Option ContractInfo :=
      match searchL tryDexPAt m.toList with
      | some (chain, contract) =>
        some ⟨"dexscreener", chain, contract,
              "https://dexscreener.com/" ++ chain ++ "/" ++ contract⟩
      | none => none
    some ⟨ticker, some direction, dex, "pumply"⟩

/-- `TelegramBotParser.process_message`: the source classifier — try the
three grammars in configured order, first success wins. -/
def classify_and_extract (m : String) : Option TickerResult :=
  match parse_mexc_tracker_message m with
  | some r => some r
  | none =>
    match parse_kormushka_message m with
    | some r => some r
    | none => parse_pumply_message m

/-! ### Concrete cache states for the eviction analysis -/

/-- A concrete full cache: the hash values `0 .. 999` in insertion order
(`self.max_cache_size` is 1000). -/
def bigCache : List Int := (List.range max_cache_size).map Int.ofNat

/-- A fresh fingerprint hash not yet in `bigCache`. -/
def newFp : Int := 1000

/-- An admissible iteration order of the set after inserting `newFp`: the
reverse of insertion order (CPython set iteration order is hash-table
order, unrelated to insertion order, so any permutation can occur). -/
def revEnum : List Int := (bigCache ++ [newFp]).reverse

/-! ### A neutral alphabet for the classifier locality analysis

The three ticker patterns and the two link patterns of
`telegram_bot_parser.py` consume only word characters, whitespace and the
literal characters of the patterns.  A character that is none of these can
neither start a match nor be consumed by one, so text over this alphabet
around a message cannot change what the classifier extracts. -/

/-- Characters consumable by no pattern of `TelegramBotParser`: plain
punctuation and whitespace (whitespace is consumable by the inner `\s+`
elements but never starts or ends a match, which the locality lemmas
account for). -/
def isNeutral (c : Char) : Bool :=
  c = ' ' || c = '\t' || c = '\n' || c = '?' || c = ',' || c = '(' ||
  c = ')' || c = ';' || c = ':' || c = '-'

/-! ## Theorems -/

/-- Claim C7: the Chain Normalizer is idempotent on the value set of its
mapping table: `normalize (normalize x) = normalize x` for every `x` in
`eth, arb, bsc, polygon, base, sol, avax`. -/
theorem normalize_idempotent_on_values :
    ∀ x ∈ ["eth", "arb", "bsc", "polygon", "base", "sol", "avax"],
      normalizeChain (normalizeChain x) = normalizeChain x := by
  decide

/-- Witness for C7 at the concrete value `eth`. -/
theorem normalize_idempotent_on_values_witness :
    normalizeChain (normalizeChain "eth") = normalizeChain "eth" :=
  normalize_idempotent_on_values "eth" (by decide)

/-- Claim C4: every successful result of the Contract Locator has
`url = "https://gmgn.ai/" ++ chain ++ "/token/" ++ contract`, whichever
of the five strategies produced it. -/
theorem contract_url_canonical (m : String) (info : ContractInfo)
    (h : extract_contract_info m = some info) :
    info.url = "https://gmgn.ai/" ++ info.chain ++ "/token/" ++ info.contract := by
  unfold extract_contract_info at h
  repeat' split at h
  all_goals
    first
      | exact Option.noConfusion h
      | (cases Option.some.inj h; rfl)

/-- Witness for C4 at a concrete message resolved by the `CA:` strategy. -/
theorem contract_url_canonical_witness :
    ({ type := "contract", chain := "eth", contract := "abc",
       url := "https://gmgn.ai/eth/token/abc" } : ContractInfo).url
      = "https://gmgn.ai/" ++ "eth" ++ "/token/" ++ "abc" :=
  contract_url_canonical "CA: abc"
    { type := "contract", chain := "eth", contract := "abc",
      url := "https://gmgn.ai/eth/token/abc" } (by decide)

/-- Claim C5: whatever exception the unprotected body of
`extract_ticker_data` raises (`KeyError` on an unknown bot name,
`IndexError` on a missing capture group), the function catches it and
returns `None`; together with its `Option`-valued type (and the
`Option`-valued, raise-free `extract_contract_info`) this is the
"every failure path returns the empty result" property. -/
theorem extraction_errors_return_none
    (re : String → String → Option (List String)) (cfg : BotsConfig)
    (m b e : String)
    (h : extractTickerDataE re cfg m b = Except.error e) :
    extract_ticker_data re cfg m b = none := by
  unfold extract_ticker_data
  rw [h]

/-- Witness for C5: an unknown bot name makes the body raise `KeyError`,
and the caught call returns `None`. -/
theorem extraction_errors_return_none_witness :
    extract_ticker_data (fun _ _ => none) ⟨[], false, []⟩ "msg" "unknown_bot" = none :=
  extraction_errors_return_none (fun _ _ => none) ⟨[], false, []⟩
    "msg" "unknown_bot" "KeyError" rfl

/-- Claim C8: the blacklist check is case-insensitive — when the
blacklist is enabled and the upper-cased extracted ticker is in the
blacklist set, `extract_ticker_data` returns no signal. -/
theorem blacklist_case_insensitive
    (re : String → String → Option (List String)) (cfg : BotsConfig)
    (m b p t : String) (d : Option String) (gs : List String)
    (hen : cfg.blacklistEnabled = true)
    (hp : cfg.monitoredBots.lookup b = some p)
    (hre : re p m = some gs)
    (htd : tickerDirectionOf b gs = Except.ok (t, d))
    (hbl : cfg.blacklistedTickers.contains (pyUpper t) = true) :
    extract_ticker_data re cfg m b = none := by
  have hibt : is_ticker_blacklisted cfg t = true := by
    unfold is_ticker_blacklisted
    rw [hen, hbl]
    rfl
  unfold extract_ticker_data extractTickerDataE
  simp only [hp, hre, htd, hibt, if_true]

/-- Witness for C8: ticker `doge` is rejected when `DOGE` is
blacklisted. -/
theorem blacklist_case_insensitive_witness :
    extract_ticker_data
      (fun p m => if p = "P" && m = "msg" then some ["doge", "Long"] else none)
      ⟨[("mexcTracker", "P")], true, ["DOGE"]⟩ "msg" "mexcTracker" = none :=
  blacklist_case_insensitive _ _ "msg" "mexcTracker" "P" "doge" (some "Long")
    ["doge", "Long"] rfl (by decide) (by decide) rfl (by decide)

/-- Claim C9: the bounded-cache invariant of the dedup step — starting
from a cache within the bound, the cache still holds at most `maxC`
entries afterwards, and whenever the post-insertion count exceeds `maxC`
it is cut down to exactly `maxC / 2` entries (integer division).  `enum`
is the iteration order used by `list(...)`, a permutation of the
post-insertion contents. -/
theorem dedup_cache_bounded (cache : List Int) (maxC : Nat) (fp : Int)
    (enum : List Int)
    (hmax : 2 ≤ maxC) (hlen : cache.length ≤ maxC)
    (hperm : fp ∉ cache → enum.Perm (cache ++ [fp])) :
    (dedupStep cache maxC fp enum).cache.length ≤ maxC ∧
    (fp ∉ cache → maxC < cache.length + 1 →
      (dedupStep cache maxC fp enum).cache.length = maxC / 2) := by
  have hdiv := Nat.div_le_self maxC 2
  by_cases hfp : fp ∈ cache
  · have hres : dedupStep cache maxC fp enum = ⟨true, cache⟩ := by
      unfold dedupStep
      rw [if_pos hfp]
    rw [hres]
    exact ⟨hlen, fun hc => absurd hfp hc⟩
  · have hperm' := hperm hfp
    have henl : enum.length = cache.length + 1 := by
      have := hperm'.length_eq
      simpa using this
    have happ : (cache ++ [fp]).length = cache.length + 1 := by simp
    by_cases hov : maxC < cache.length + 1
    · have hres : dedupStep cache maxC fp enum = ⟨false, pyTakeLast enum (maxC / 2)⟩ := by
        unfold dedupStep
        rw [if_neg hfp, if_pos (by omega)]
      have hlen2 : (pyTakeLast enum (maxC / 2)).length = maxC / 2 := by
        unfold pyTakeLast
        rw [if_neg (by omega), enum.length_drop]
        omega
      rw [hres]
      exact ⟨by rw [hlen2]; omega, fun _ _ => hlen2⟩
    · have hres : dedupStep cache maxC fp enum = ⟨false, cache ++ [fp]⟩ := by
        unfold dedupStep
        rw [if_neg hfp, if_neg (by omega)]
      rw [hres]
      exact ⟨by rw [happ]; omega, fun _ h => absurd h hov⟩

/-- Witness for C9 at a concrete call. -/
theorem dedup_cache_bounded_witness :
    (dedupStep [] 1000 0 [0]).cache.length ≤ 1000 ∧
    ((0 : Int) ∉ ([] : List Int) → 1000 < ([] : List Int).length + 1 →
      (dedupStep [] 1000 0 [0]).cache.length = 1000 / 2) :=
  dedup_cache_bounded [] 1000 0 [0] (by omega) (by simp)
    (fun _ => by simp)

/-! Helper lemmas about the concrete full-cache state. -/

theorem bigCache_length : bigCache.length = 1000 := by
  unfold bigCache
  rw [List.length_map, List.length_range]
  rfl

theorem newFp_not_mem_bigCache : newFp ∉ bigCache := by
  unfold bigCache newFp
  intro h
  rw [List.mem_map] at h
  obtain ⟨n, hn, he⟩ := h
  rw [List.mem_range] at hn
  have hn1000 : n = 1000 := by
    rw [Int.ofNat_eq_coe] at he
    exact_mod_cast he
  unfold max_cache_size at hn
  omega

theorem revEnum_eq : revEnum = newFp :: bigCache.reverse := by
  simp [revEnum]

theorem revEnum_length : revEnum.length = 1001 := by
  rw [revEnum_eq]
  simp [bigCache_length]

theorem dedup_first_eval :
    dedupStep bigCache max_cache_size newFp revEnum
      = ⟨false, List.drop 500 bigCache.reverse⟩ := by
  have h1 : (bigCache ++ [newFp]).length > max_cache_size := by
    simp [bigCache_length, max_cache_size]
  have h2 : pyTakeLast revEnum (max_cache_size / 2) = List.drop 500 bigCache.reverse := by
    unfold pyTakeLast
    rw [if_neg (by norm_num [max_cache_size])]
    rw [revEnum_length, revEnum_eq]
    have h501 : (1001 : Nat) - max_cache_size / 2 = 500 + 1 := by
      norm_num [max_cache_size]
    rw [h501, List.drop_succ_cons]
  unfold dedupStep
  rw [if_neg newFp_not_mem_bigCache, if_pos h1, h2]

theorem newFp_not_mem_after : newFp ∉ List.drop 500 bigCache.reverse := by
  intro h
  exact newFp_not_mem_bigCache (by
    have hm := List.mem_of_mem_drop h
    rwa [List.mem_reverse] at hm)

/-- Claim C1 is false as stated: when the first call overflows the cache,
the half-flush `set(list(...)[-500:])` slices an *iteration order* of the
set, and CPython set iteration order is unrelated to insertion order, so
the just-recorded fingerprint itself can be evicted — here under the
(admissible) iteration order `revEnum` — and the second identical call
then accepts again instead of reporting a duplicate. -/
theorem dedup_second_call_not_duplicate :
    revEnum.Perm (bigCache ++ [newFp]) ∧
    newFp ∉ bigCache ∧
    (dedupStep bigCache max_cache_size newFp revEnum).duplicate = false ∧
    newFp ∉ (dedupStep bigCache max_cache_size newFp revEnum).cache ∧
    (dedupStep (dedupStep bigCache max_cache_size newFp revEnum).cache
        max_cache_size newFp
        ((dedupStep bigCache max_cache_size newFp revEnum).cache ++ [newFp])).duplicate
      = false := by
  refine ⟨List.reverse_perm _, newFp_not_mem_bigCache, ?_, ?_, ?_⟩
  · rw [dedup_first_eval]
  · rw [dedup_first_eval]
    exact newFp_not_mem_after
  · rw [dedup_first_eval]
    unfold dedupStep
    rw [if_neg newFp_not_mem_after]
    split
    · rfl
    · rfl

/-- Claim C1 (amended): provided the first call does not overflow the
cache (no eviction is triggered), two consecutive calls with identical
`(source, message_id, text-prefix)` arguments yield accept then
duplicate, and the first call records the fingerprint; when eviction
does trigger, the fresh fingerprint itself may be flushed (see the
counterexample) and the guarantee is lost. -/
theorem dedup_accept_then_duplicate
    (hash : String → Int) (b : String) (mid : Int) (msg : String)
    (cache : List Int) (maxC : Nat) (enum enum2 : List Int)
    (hnew : hash (fingerprintStr b mid msg) ∉ cache)
    (hroom : cache.length + 1 ≤ maxC) :
    dedupStep cache maxC (hash (fingerprintStr b mid msg)) enum
      = ⟨false, cache ++ [hash (fingerprintStr b mid msg)]⟩ ∧
    (dedupStep (cache ++ [hash (fingerprintStr b mid msg)]) maxC
        (hash (fingerprintStr b mid msg)) enum2).duplicate = true := by
  constructor
  · unfold dedupStep
    rw [if_neg hnew,
        if_neg (by simp only [List.length_append, List.length_cons, List.length_nil]; omega)]
  · unfold dedupStep
    rw [if_pos (by simp)]

/-- Witness for the amended C1 at a concrete hash oracle and empty cache. -/
theorem dedup_accept_then_duplicate_witness :
    dedupStep [] 1000 ((fun _ => (0 : Int)) (fingerprintStr "bot" 5 "hello")) []
      = ⟨false, [] ++ [(fun _ => (0 : Int)) (fingerprintStr "bot" 5 "hello")]⟩ ∧
    (dedupStep ([] ++ [(fun _ => (0 : Int)) (fingerprintStr "bot" 5 "hello")]) 1000
        ((fun _ => (0 : Int)) (fingerprintStr "bot" 5 "hello")) []).duplicate = true :=
  dedup_accept_then_duplicate (fun _ => 0) "bot" 5 "hello" [] 1000 [] []
    (by simp) (by simp)

/-- Claim C2 is false as stated: with the full cache `bigCache` (hash
values 0..999 in insertion order) and the admissible set iteration order
`revEnum`, the eviction step keeps the *first*-inserted 500 fingerprints
and drops the most recent one — the surviving half is the tail of the
set's iteration order, not the most-recently-inserted half. -/
theorem eviction_not_most_recent_half :
    revEnum.Perm (bigCache ++ [newFp]) ∧
    newFp ∈ pyTakeLast (bigCache ++ [newFp]) (max_cache_size / 2) ∧
    newFp ∉ (dedupStep bigCache max_cache_size newFp revEnum).cache ∧
    (dedupStep bigCache max_cache_size newFp revEnum).cache
      ≠ pyTakeLast (bigCache ++ [newFp]) (max_cache_size / 2) := by
  have hmem : newFp ∈ pyTakeLast (bigCache ++ [newFp]) (max_cache_size / 2) := by
    unfold pyTakeLast
    rw [if_neg (by norm_num [max_cache_size])]
    have hl : (bigCache ++ [newFp]).length - max_cache_size / 2 = 501 := by
      simp [bigCache_length, max_cache_size]
    rw [hl, List.drop_append_of_le_length (by rw [bigCache_length]; omega)]
    simp
  refine ⟨List.reverse_perm _, hmem, ?_, ?_⟩
  · rw [dedup_first_eval]
    exact newFp_not_mem_after
  · rw [dedup_first_eval]
    intro h
    rw [← h] at hmem
    exact newFp_not_mem_after hmem

/-- Claim C2 (amended): when the post-insertion count exceeds the
configured maximum, the step keeps exactly `maxC / 2` fingerprints, all
previously recorded — namely the last `maxC / 2` of the set's iteration
order `enum`, which (sets being unordered) need not be the
most-recently-inserted half. -/
theorem eviction_keeps_arbitrary_half (cache : List Int) (maxC : Nat) (fp : Int)
    (enum : List Int) (hmax : 2 ≤ maxC) (hnew : fp ∉ cache)
    (hover : maxC < cache.length + 1) (hperm : enum.Perm (cache ++ [fp])) :
    (dedupStep cache maxC fp enum).cache = pyTakeLast enum (maxC / 2) ∧
    (dedupStep cache maxC fp enum).cache.length = maxC / 2 ∧
    ∀ x ∈ (dedupStep cache maxC fp enum).cache, x ∈ cache ++ [fp] := by
  have hres : dedupStep cache maxC fp enum = ⟨false, pyTakeLast enum (maxC / 2)⟩ := by
    unfold dedupStep
    rw [if_neg hnew,
        if_pos (by simp only [List.length_append, List.length_cons, List.length_nil]; omega)]
  have henl : enum.length = cache.length + 1 := by
    have := hperm.length_eq
    simpa using this
  have hlen : (pyTakeLast enum (maxC / 2)).length = maxC / 2 := by
    unfold pyTakeLast
    have hd := Nat.div_le_self maxC 2
    rw [if_neg (by omega), enum.length_drop]
    omega
  refine ⟨by rw [hres], by rw [hres]; exact hlen, ?_⟩
  intro x hx
  rw [hres] at hx
  have hxe : x ∈ enum := by
    unfold pyTakeLast at hx
    split at hx
    · exact hx
    · exact List.mem_of_mem_drop hx
  exact hperm.mem_iff.mp hxe

/-- Witness for the amended C2 at a concrete overflow. -/
theorem eviction_keeps_arbitrary_half_witness :
    (dedupStep [0, 1] 2 2 [2, 0, 1]).cache = pyTakeLast [2, 0, 1] (2 / 2) ∧
    (dedupStep [0, 1] 2 2 [2, 0, 1]).cache.length = 2 / 2 ∧
    ∀ x ∈ (dedupStep [0, 1] 2 2 [2, 0, 1]).cache, x ∈ ([0, 1] : List Int) ++ [2] :=
  eviction_keeps_arbitrary_half [0, 1] 2 2 [2, 0, 1]
    (by omega) (by decide) (by decide) (by decide)

/-- Claim C3 is false as stated: the direct Solana-mint strategy runs
*before* the gmgn-link strategy, so a message that also contains a 32-44
character base58 token together with a Solana marker returns that token
with chain `sol`, not the gmgn link's address/chain, even though the
message contains both a gmgn link and a different `CA:` address. -/
theorem gmgn_not_always_preferred :
    searchGmgn "SOLANA mint ABCDEFGHJKmnopqrstuvwxyz23456789 here gmgn.ai/eth/token/0xdead CA: 0xbeef"
      = some ("eth", "0xdead") ∧
    searchCA "SOLANA mint ABCDEFGHJKmnopqrstuvwxyz23456789 here gmgn.ai/eth/token/0xdead CA: 0xbeef"
      = some "0xbeef" ∧
    ("0xbeef" : String) ≠ "0xdead" ∧
    extract_contract_info "SOLANA mint ABCDEFGHJKmnopqrstuvwxyz23456789 here gmgn.ai/eth/token/0xdead CA: 0xbeef"
      = some ⟨"gmgn", "sol", "ABCDEFGHJKmnopqrstuvwxyz23456789",
          "https://gmgn.ai/sol/token/ABCDEFGHJKmnopqrstuvwxyz23456789"⟩ ∧
    (("sol" : String) ≠ "eth" ∧ ("ABCDEFGHJKmnopqrstuvwxyz23456789" : String) ≠ "0xdead") := by
  refine ⟨?_, ?_, ?_, ?_, ?_, ?_⟩ <;> decide

/-- Claim C3 (amended): provided the direct Solana-mint strategy does not
fire on the message (that strategy outranks everything), a message with a
gmgn link and a `CA:` field holding a different address resolves to the
gmgn link's address and chain. -/
theorem gmgn_beats_ca (m chain addr t : String)
    (hsol : solanaMint m = none ∨ hasSolMarker m = false)
    (hg : searchGmgn m = some (chain, addr))
    (hca : searchCA m = some t) (hne : t ≠ addr) :
    extract_contract_info m = some ⟨"gmgn", chain, addr, gmgnUrl chain addr⟩ := by
  rcases hsol with h | h
  · simp only [extract_contract_info, h, hg]
  · cases hm : solanaMint m with
    | none => simp only [extract_contract_info, hm, hg]
    | some c => simp only [extract_contract_info, hm, h, hg]

/-- Witness for the amended C3. -/
theorem gmgn_beats_ca_witness :
    extract_contract_info "gmgn.ai/bsc/token/0xabc CA: 0xdef"
      = some ⟨"gmgn", "bsc", "0xabc", gmgnUrl "bsc" "0xabc"⟩ :=
  gmgn_beats_ca _ "bsc" "0xabc" "0xdef" (Or.inl (by decide)) (by decide)
    (by decide) (by decide)

/-- Claim C10: the labeled-field strategies (`CA:` and case-insensitive
`contract:`) capture the first maximal run of non-whitespace characters
after the label with no alphabet constraint — `searchCA`/`searchContract`
are built from `[^\s\n]+` — and whatever token they capture is returned
verbatim as the contract and embedded unchanged in the
`https://gmgn.ai/<chain>/token/<contract>` URL. -/
theorem labeled_field_verbatim (m1 m2 t1 t2 : String)
    (h1sol : solanaMint m1 = none ∨ hasSolMarker m1 = false)
    (h1g : searchGmgn m1 = none)
    (h1ca : searchCA m1 = some t1)
    (h2sol : solanaMint m2 = none ∨ hasSolMarker m2 = false)
    (h2g : searchGmgn m2 = none)
    (h2ca : searchCA m2 = none)
    (h2con : searchContract m2 = some t2) :
    extract_contract_info m1
      = some ⟨"contract", normalizeChain (caChain m1), t1,
          "https://gmgn.ai/" ++ normalizeChain (caChain m1) ++ "/token/" ++ t1⟩ ∧
    extract_contract_info m2
      = some ⟨"contract", normalizeChain (contractChain m2), t2,
          "https://gmgn.ai/" ++ normalizeChain (contractChain m2) ++ "/token/" ++ t2⟩ := by
  constructor
  · rcases h1sol with h | h
    · simp only [extract_contract_info, h, h1g, h1ca]
      rfl
    · cases hm : solanaMint m1 with
      | none =>
        simp only [extract_contract_info, hm, h1g, h1ca]
        rfl
      | some c =>
        simp only [extract_contract_info, hm, h, h1g, h1ca]
        rfl
  · rcases h2sol with h | h
    · simp only [extract_contract_info, h, h2g, h2ca, h2con]
      rfl
    · cases hm : solanaMint m2 with
      | none =>
        simp only [extract_contract_info, hm, h2g, h2ca, h2con]
        rfl
      | some c =>
        simp only [extract_contract_info, hm, h, h2g, h2ca, h2con]
        rfl

/-- Witness for C10: the truncated token `3a...` and the punctuation
token `?!.,` are returned verbatim and embedded in the URL. -/
theorem labeled_field_verbatim_witness :
    extract_contract_info "CA: 3a..."
      = some ⟨"contract", normalizeChain (caChain "CA: 3a..."), "3a...",
          "https://gmgn.ai/" ++ normalizeChain (caChain "CA: 3a...") ++ "/token/" ++ "3a..."⟩ ∧
    extract_contract_info "Contract: ?!.,"
      = some ⟨"contract", normalizeChain (contractChain "Contract: ?!.,"), "?!.,",
          "https://gmgn.ai/" ++ normalizeChain (contractChain "Contract: ?!.,") ++ "/token/" ++ "?!.,"⟩ :=
  labeled_field_verbatim "CA: 3a..." "Contract: ?!.," "3a..." "?!.,"
    (Or.inl (by decide)) (by decide) (by decide)
    (Or.inl (by decide)) (by decide) (by decide) (by decide)

/-! Locality lemmas: matching is unaffected by appending neutral text. -/

theorem word_of_not_neutral {c : Char} (h : isNeutral c = true) : isWordChar c = false := by
  unfold isNeutral at h
  simp only [Bool.or_eq_true, decide_eq_true_eq] at h
  rcases h with ((((((((rfl | rfl) | rfl) | rfl) | rfl) | rfl) | rfl) | rfl) | rfl) | rfl <;> rfl

theorem hexx_of_not_neutral {c : Char} (h : isNeutral c = true) : isHexXChar c = false := by
  unfold isNeutral at h
  simp only [Bool.or_eq_true, decide_eq_true_eq] at h
  rcases h with ((((((((rfl | rfl) | rfl) | rfl) | rfl) | rfl) | rfl) | rfl) | rfl) | rfl <;> rfl

theorem numdot_of_not_neutral {c : Char} (h : isNeutral c = true) : isNumDotChar c = false := by
  unfold isNeutral at h
  simp only [Bool.or_eq_true, decide_eq_true_eq] at h
  rcases h with ((((((((rfl | rfl) | rfl) | rfl) | rfl) | rfl) | rfl) | rfl) | rfl) | rfl <;> rfl

theorem digit_of_not_neutral {c : Char} (h : isNeutral c = true) : isDigitChar c = false := by
  unfold isNeutral at h
  simp only [Bool.or_eq_true, decide_eq_true_eq] at h
  rcases h with ((((((((rfl | rfl) | rfl) | rfl) | rfl) | rfl) | rfl) | rfl) | rfl) | rfl <;> rfl

theorem takeWhile_nil_of_neutral (p : Char → Bool)
    (hp : ∀ c, isNeutral c = true → p c = false) (v : List Char)
    (hv : ∀ c ∈ v, isNeutral c = true) : v.takeWhile p = [] := by
  cases v with
  | nil => rfl
  | cons c cs =>
    rw [List.takeWhile_cons, if_neg]
    rw [hp c (hv c (by simp))]
    simp

theorem takeWhile_append_nil (p : Char → Bool) (s v : List Char)
    (hvt : v.takeWhile p = []) : (s ++ v).takeWhile p = s.takeWhile p := by
  induction s with
  | nil => simpa using hvt
  | cons c cs ih =>
    rw [List.cons_append, List.takeWhile_cons, List.takeWhile_cons]
    by_cases h : p c
    · rw [if_pos h, if_pos h, ih]
    · rw [if_neg h, if_neg h]

theorem dropWhile_self_of_takeWhile_nil (p : Char → Bool) (v : List Char)
    (hvt : v.takeWhile p = []) : v.dropWhile p = v := by
  cases v with
  | nil => rfl
  | cons c cs =>
    rw [List.takeWhile_cons] at hvt
    rw [List.dropWhile_cons]
    by_cases h : p c
    · rw [if_pos h] at hvt
      exact absurd hvt (by simp)
    · rw [if_neg h]

theorem dropWhile_append_keep (p : Char → Bool) (s v : List Char)
    (hvt : v.takeWhile p = []) : (s ++ v).dropWhile p = s.dropWhile p ++ v := by
  induction s with
  | nil =>
    rw [List.nil_append, List.dropWhile_nil, List.nil_append]
    exact dropWhile_self_of_takeWhile_nil p v hvt
  | cons c cs ih =>
    rw [List.cons_append, List.dropWhile_cons, List.dropWhile_cons]
    by_cases h : p c
    · rw [if_pos h, if_pos h, ih]
    · rw [if_neg h, if_neg h, List.cons_append]

theorem spanPosM_append (p : Char → Bool) (s v : List Char)
    (hvt : v.takeWhile p = []) :
    spanPosM p (s ++ v) = (spanPosM p s).map (fun pr => (pr.1, pr.2 ++ v)) := by
  unfold spanPosM
  rw [takeWhile_append_nil p s v hvt, dropWhile_append_keep p s v hvt]
  by_cases h : (s.takeWhile p).isEmpty
  · rw [if_pos h, if_pos h]
    rfl
  · rw [if_neg h, if_neg h]
    rfl

theorem litM_append (l s v : List Char)
    (hl : ∀ c ∈ l, isNeutral c = false)
    (hv : ∀ c ∈ v, isNeutral c = true) :
    litM l (s ++ v) = (litM l s).map (· ++ v) := by
  induction l generalizing s with
  | nil => simp [litM]
  | cons c cl ih =>
    cases s with
    | nil =>
      rw [List.nil_append]
      cases v with
      | nil => rfl
      | cons d ds =>
        have hd : isNeutral d = true := hv d (by simp)
        have hc : isNeutral c = false := hl c (by simp)
        have hne : d ≠ c := by
          intro he
          rw [he, hc] at hd
          cases hd
        rw [show litM (c :: cl) [] = none from rfl]
        unfold litM
        rw [if_neg hne]
        rfl
    | cons e es =>
      rw [List.cons_append]
      unfold litM
      by_cases he : e = c
      · rw [if_pos he, if_pos he, ih es (fun x hx => hl x (by simp [hx]))]
      · rw [if_neg he, if_neg he]
        rfl

theorem afterWs_nil (f : List Char → Option β) : afterWs f [] = none := rfl

theorem afterWs_eq (f : List Char → Option β) (c : Char) (cs : List Char) :
    afterWs f (c :: cs) =
      if isSpaceChar c then f (cs.dropWhile isSpaceChar) else none := by
  by_cases h : isSpaceChar c
  · simp [afterWs, spanPosM, List.takeWhile_cons, List.dropWhile_cons, h]
  · simp [afterWs, spanPosM, List.takeWhile_cons, h]

theorem mem_of_mem_dropWhile (p : Char → Bool) (l : List Char) :
    ∀ c ∈ l.dropWhile p, c ∈ l := by
  induction l with
  | nil => simp
  | cons d ds ih =>
    rw [List.dropWhile_cons]
    by_cases h : p d
    · rw [if_pos h]
      intro c hc
      exact List.mem_cons_of_mem _ (ih c hc)
    · rw [if_neg h]
      intro c hc
      exact hc

theorem dropWhile_ws_append (cs v : List Char) :
    (cs ++ v).dropWhile isSpaceChar = cs.dropWhile isSpaceChar ++ v ∨
    (cs.dropWhile isSpaceChar = [] ∧
     (cs ++ v).dropWhile isSpaceChar = v.dropWhile isSpaceChar) := by
  induction cs with
  | nil => exact Or.inr ⟨rfl, rfl⟩
  | cons c cc ih =>
    rw [List.cons_append, List.dropWhile_cons, List.dropWhile_cons]
    by_cases h : isSpaceChar c
    · rw [if_pos h, if_pos h]
      exact ih
    · rw [if_neg h, if_neg h]
      exact Or.inl (List.cons_append c cc v)

theorem none_on_neutral (f : List Char → Option β)
    (hnil : f [] = none)
    (hneu : ∀ c rest, isNeutral c = true → f (c :: rest) = none)
    (w : List Char) (hw : ∀ c ∈ w, isNeutral c = true) : f w = none := by
  cases w with
  | nil => exact hnil
  | cons c cs => exact hneu c cs (hw c (by simp))

theorem afterWs_append (f : List Char → Option β) (g : β → β) (s v : List Char)
    (hv : ∀ c ∈ v, isNeutral c = true)
    (hf : ∀ s', f (s' ++ v) = (f s').map g)
    (hnil : f [] = none)
    (hneu : ∀ c rest, isNeutral c = true → f (c :: rest) = none) :
    afterWs f (s ++ v) = (afterWs f s).map g := by
  have hv' : ∀ c ∈ v.dropWhile isSpaceChar, isNeutral c = true :=
    fun c hc => hv c (mem_of_mem_dropWhile _ v c hc)
  cases s with
  | nil =>
    rw [List.nil_append, afterWs_nil, Option.map_none']
    cases v with
    | nil => exact afterWs_nil f
    | cons c cs =>
      rw [afterWs_eq]
      by_cases h : isSpaceChar c
      · rw [if_pos h]
        exact none_on_neutral f hnil hneu _
          (fun x hx => hv x (List.mem_cons_of_mem _ (mem_of_mem_dropWhile _ cs x hx)))
      · rw [if_neg h]
  | cons c cs =>
    rw [List.cons_append, afterWs_eq, afterWs_eq]
    by_cases h : isSpaceChar c
    · rw [if_pos h, if_pos h]
      rcases dropWhile_ws_append cs v with hd | ⟨hd1, hd2⟩
      · rw [hd, hf]
      · rw [hd2, hd1, none_on_neutral f hnil hneu _ hv', hnil, Option.map_none']
    · rw [if_neg h, if_neg h, Option.map_none']

theorem dirAlt_append (a b s v : List Char)
    (ha : ∀ c ∈ a, isNeutral c = false) (hb : ∀ c ∈ b, isNeutral c = false)
    (hv : ∀ c ∈ v, isNeutral c = true) :
    dirAlt a b (s ++ v) = (dirAlt a b s).map (fun pr => (pr.1, pr.2 ++ v)) := by
  unfold dirAlt
  rw [litM_append a s v ha hv, litM_append b s v hb hv]
  cases litM a s with
  | some r => rfl
  | none =>
    cases litM b s with
    | some r => rfl
    | none => rfl

theorem litM_nil_none (c : Char) (l : List Char) : litM (c :: l) [] = none := rfl

theorem litM_neutral_none (c : Char) (l : List Char) (hc : isNeutral c = false)
    (d : Char) (rest : List Char) (hd : isNeutral d = true) :
    litM (c :: l) (d :: rest) = none := by
  unfold litM
  rw [if_neg (by intro he; rw [he, hc] at hd; cases hd)]

theorem spanPosM_nil_none (p : Char → Bool) : spanPosM p [] = none := rfl

theorem spanPosM_neutral_none (p : Char → Bool)
    (hp : ∀ c, isNeutral c = true → p c = false)
    (c : Char) (rest : List Char) (hc : isNeutral c = true) :
    spanPosM p (c :: rest) = none := by
  unfold spanPosM
  rw [List.takeWhile_cons, hp c hc]
  rfl

theorem dirAlt_nil_none (c : Char) (l : List Char) (d : Char) (l2 : List Char) :
    dirAlt (c :: l) (d :: l2) [] = none := rfl

theorem dirAlt_neutral_none (c : Char) (l : List Char) (d : Char) (l2 : List Char)
    (hc : isNeutral c = false) (hd : isNeutral d = false)
    (e : Char) (rest : List Char) (he : isNeutral e = true) :
    dirAlt (c :: l) (d :: l2) (e :: rest) = none := by
  unfold dirAlt
  rw [litM_neutral_none c l hc e rest he, litM_neutral_none d l2 hd e rest he]

theorem tryMexcAt_append (s v : List Char) (hv : ∀ c ∈ v, isNeutral c = true) :
    tryMexcAt (s ++ v) = tryMexcAt s := by
  have hw : v.takeWhile isWordChar = [] :=
    takeWhile_nil_of_neutral _ (fun c h => word_of_not_neutral h) v hv
  have hn : v.takeWhile isNumDotChar = [] :=
    takeWhile_nil_of_neutral _ (fun c h => numdot_of_not_neutral h) v hv
  unfold tryMexcAt
  rw [spanPosM_append isWordChar s v hw]
  cases h1 : spanPosM isWordChar s with
  | none => rfl
  | some ts =>
    simp only [Option.map_some', Option.some_bind]
    rw [afterWs_append (litM "|".toList) (· ++ v) ts.2 v hv
        (fun s' => litM_append _ s' v (by decide) hv) rfl
        (fun c rest hc => litM_neutral_none '|' [] (by decide) c rest hc)]
    cases h2 : afterWs (litM "|".toList) ts.2 with
    | none => rfl
    | some s1 =>
      simp only [Option.map_some', Option.some_bind]
      rw [afterWs_append (spanPosM isNumDotChar) (fun pr => (pr.1, pr.2 ++ v)) s1 v hv
          (fun s' => spanPosM_append isNumDotChar s' v hn) rfl
          (fun c rest hc =>
            spanPosM_neutral_none isNumDotChar (fun c h => numdot_of_not_neutral h) c rest hc)]
      cases h3 : afterWs (spanPosM isNumDotChar) s1 with
      | none => rfl
      | some ns =>
        simp only [Option.map_some', Option.some_bind]
        rw [litM_append "%".toList ns.2 v (by decide) hv]
        cases h4 : litM "%".toList ns.2 with
        | none => rfl
        | some s2 =>
          simp only [Option.map_some', Option.some_bind]
          rw [afterWs_append (litM "|".toList) (· ++ v) s2 v hv
              (fun s' => litM_append _ s' v (by decide) hv) rfl
              (fun c rest hc => litM_neutral_none '|' [] (by decide) c rest hc)]
          cases h5 : afterWs (litM "|".toList) s2 with
          | none => rfl
          | some s3 =>
            simp only [Option.map_some', Option.some_bind]
            rw [afterWs_append (dirAlt "Long".toList "Short".toList)
                (fun pr => (pr.1, pr.2 ++ v)) s3 v hv
                (fun s' => dirAlt_append _ _ s' v (by decide) (by decide) hv) rfl
                (fun c rest hc =>
                  dirAlt_neutral_none 'L' "ong".toList 'S' "hort".toList
                    (by decide) (by decide) c rest hc)]
            cases h6 : afterWs (dirAlt "Long".toList "Short".toList) s3 with
            | none => rfl
            | some dr => simp only [Option.map_some']

theorem tryKormAt_append (s v : List Char) (hv : ∀ c ∈ v, isNeutral c = true) :
    tryKormAt (s ++ v) = tryKormAt s := by
  have hw : v.takeWhile isWordChar = [] :=
    takeWhile_nil_of_neutral _ (fun c h => word_of_not_neutral h) v hv
  have hn : v.takeWhile isNumDotChar = [] :=
    takeWhile_nil_of_neutral _ (fun c h => numdot_of_not_neutral h) v hv
  have hdg : v.takeWhile isDigitChar = [] :=
    takeWhile_nil_of_neutral _ (fun c h => digit_of_not_neutral h) v hv
  unfold tryKormAt
  rw [spanPosM_append isWordChar s v hw]
  cases h1 : spanPosM isWordChar s with
  | none => rfl
  | some ts =>
    simp only [Option.map_some', Option.some_bind]
    rw [afterWs_append (litM "+".toList) (· ++ v) ts.2 v hv
        (fun s' => litM_append _ s' v (by decide) hv) rfl
        (fun c rest hc => litM_neutral_none '+' [] (by decide) c rest hc)]
    cases h2 : afterWs (litM "+".toList) ts.2 with
    | none => rfl
    | some s1 =>
      simp only [Option.map_some', Option.some_bind]
      rw [spanPosM_append isNumDotChar s1 v hn]
      cases h3 : spanPosM isNumDotChar s1 with
      | none => rfl
      | some ns =>
        simp only [Option.map_some', Option.some_bind]
        rw [litM_append "%".toList ns.2 v (by decide) hv]
        cases h4 : litM "%".toList ns.2 with
        | none => rfl
        | some s2 =>
          simp only [Option.map_some', Option.some_bind]
          rw [afterWs_append (litM "in".toList) (· ++ v) s2 v hv
              (fun s' => litM_append _ s' v (by decide) hv) rfl
              (fun c rest hc => litM_neutral_none 'i' "n".toList (by decide) c rest hc)]
          cases h5 : afterWs (litM "in".toList) s2 with
          | none => rfl
          | some s3 =>
            simp only [Option.map_some', Option.some_bind]
            rw [afterWs_append (spanPosM isDigitChar) (fun pr => (pr.1, pr.2 ++ v)) s3 v hv
                (fun s' => spanPosM_append isDigitChar s' v hdg) rfl
                (fun c rest hc =>
                  spanPosM_neutral_none isDigitChar (fun c h => digit_of_not_neutral h) c rest hc)]
            cases h6 : afterWs (spanPosM isDigitChar) s3 with
            | none => rfl
            | some ds =>
              simp only [Option.map_some', Option.some_bind]
              rw [afterWs_append (litM "secs!".toList) (· ++ v) ds.2 v hv
                  (fun s' => litM_append _ s' v (by decide) hv) rfl
                  (fun c rest hc => litM_neutral_none 's' "ecs!".toList (by decide) c rest hc)]
              cases h7 : afterWs (litM "secs!".toList) ds.2 with
              | none => rfl
              | some s4 => simp only [Option.map_some']

theorem tryPumplyAt_append (s v : List Char) (hv : ∀ c ∈ v, isNeutral c = true) :
    tryPumplyAt (s ++ v) = tryPumplyAt s := by
  have hw : v.takeWhile isWordChar = [] :=
    takeWhile_nil_of_neutral _ (fun c h => word_of_not_neutral h) v hv
  have hn : v.takeWhile isNumDotChar = [] :=
    takeWhile_nil_of_neutral _ (fun c h => numdot_of_not_neutral h) v hv
  unfold tryPumplyAt
  rw [litM_append "🔻".toList s v (by decide) hv]
  cases h1 : litM "🔻".toList s with
  | none => rfl
  | some s0 =>
    simp only [Option.map_some', Option.some_bind]
    rw [afterWs_append (dirAlt "SHORT".toList "LONG".toList)
        (fun pr => (pr.1, pr.2 ++ v)) s0 v hv
        (fun s' => dirAlt_append _ _ s' v (by decide) (by decide) hv) rfl
        (fun c rest hc =>
          dirAlt_neutral_none 'S' "HORT".toList 'L' "ONG".toList
            (by decide) (by decide) c rest hc)]
    cases h2 : afterWs (dirAlt "SHORT".toList "LONG".toList) s0 with
    | none => rfl
    | some dr =>
      simp only [Option.map_some', Option.some_bind]
      rw [afterWs_append (litM "$".toList) (· ++ v) dr.2 v hv
          (fun s' => litM_append _ s' v (by decide) hv) rfl
          (fun c rest hc => litM_neutral_none '$' [] (by decide) c rest hc)]
      cases h3 : afterWs (litM "$".toList) dr.2 with
      | none => rfl
      | some s1 =>
        simp only [Option.map_some', Option.some_bind]
        rw [spanPosM_append isWordChar s1 v hw]
        cases h4 : spanPosM isWordChar s1 with
        | none => rfl
        | some ts =>
          simp only [Option.map_some', Option.some_bind]
          rw [afterWs_append (litM "+".toList) (· ++ v) ts.2 v hv
              (fun s' => litM_append _ s' v (by decide) hv) rfl
              (fun c rest hc => litM_neutral_none '+' [] (by decide) c rest hc)]
          cases h5 : afterWs (litM "+".toList) ts.2 with
          | none => rfl
          | some s2 =>
            simp only [Option.map_some', Option.some_bind]
            rw [spanPosM_append isNumDotChar s2 v hn]
            cases h6 : spanPosM isNumDotChar s2 with
            | none => rfl
            | some ns =>
              simp only [Option.map_some', Option.some_bind]
              rw [litM_append "%".toList ns.2 v (by decide) hv]
              cases h7 : litM "%".toList ns.2 with
              | none => rfl
              | some s3 =>
                simp only [Option.map_some', Option.some_bind]
                rw [afterWs_append (litM "on".toList) (· ++ v) s3 v hv
                    (fun s' => litM_append _ s' v (by decide) hv) rfl
                    (fun c rest hc => litM_neutral_none 'o' "n".toList (by decide) c rest hc)]
                cases h8 : afterWs (litM "on".toList) s3 with
                | none => rfl
                | some s4 =>
                  simp only [Option.map_some', Option.some_bind]
                  rw [afterWs_append (litM "MEXC".toList) (· ++ v) s4 v hv
                      (fun s' => litM_append _ s' v (by decide) hv) rfl
                      (fun c rest hc => litM_neutral_none 'M' "EXC".toList (by decide) c rest hc)]
                  cases h9 : afterWs (litM "MEXC".toList) s4 with
                  | none => rfl
                  | some s5 => simp only [Option.map_some']

theorem tryDexPAt_append (s v : List Char) (hv : ∀ c ∈ v, isNeutral c = true) :
    tryDexPAt (s ++ v) = tryDexPAt s := by
  have hw : v.takeWhile isWordChar = [] :=
    takeWhile_nil_of_neutral _ (fun c h => word_of_not_neutral h) v hv
  have hx : v.takeWhile isHexXChar = [] :=
    takeWhile_nil_of_neutral _ (fun c h => hexx_of_not_neutral h) v hv
  unfold tryDexPAt
  rw [litM_append "dexscreener.com/".toList s v (by decide) hv]
  cases h1 : litM "dexscreener.com/".toList s with
  | none => rfl
  | some s0 =>
    simp only [Option.map_some', Option.some_bind]
    rw [spanPosM_append isWordChar s0 v hw]
    cases h2 : spanPosM isWordChar s0 with
    | none => rfl
    | some cs =>
      simp only [Option.map_some', Option.some_bind]
      rw [litM_append "/".toList cs.2 v (by decide) hv]
      cases h3 : litM "/".toList cs.2 with
      | none => rfl
      | some s1 =>
        simp only [Option.map_some', Option.some_bind]
        rw [spanPosM_append isHexXChar s1 v hx]
        cases h4 : spanPosM isHexXChar s1 with
        | none => rfl
        | some hs => simp only [Option.map_some']

theorem tryGmgnPAt_append (s v : List Char) (hv : ∀ c ∈ v, isNeutral c = true) :
    tryGmgnPAt (s ++ v) = tryGmgnPAt s := by
  have hw : v.takeWhile isWordChar = [] :=
    takeWhile_nil_of_neutral _ (fun c h => word_of_not_neutral h) v hv
  have hx : v.takeWhile isHexXChar = [] :=
    takeWhile_nil_of_neutral _ (fun c h => hexx_of_not_neutral h) v hv
  unfold tryGmgnPAt
  rw [litM_append "gmgn.ai/".toList s v (by decide) hv]
  cases h1 : litM "gmgn.ai/".toList s with
  | none => rfl
  | some s0 =>
    simp only [Option.map_some', Option.some_bind]
    rw [spanPosM_append isWordChar s0 v hw]
    cases h2 : spanPosM isWordChar s0 with
    | none => rfl
    | some cs =>
      simp only [Option.map_some', Option.some_bind]
      rw [litM_append "/token/".toList cs.2 v (by decide) hv]
      cases h3 : litM "/token/".toList cs.2 with
      | none => rfl
      | some s1 =>
        simp only [Option.map_some', Option.some_bind]
        rw [spanPosM_append isHexXChar s1 v hx]
        cases h4 : spanPosM isHexXChar s1 with
        | none => rfl
        | some hs => simp only [Option.map_some']

theorem tryMexcAt_neutral (c : Char) (rest : List Char) (hc : isNeutral c = true) :
    tryMexcAt (c :: rest) = none := by
  unfold tryMexcAt
  rw [spanPosM_neutral_none isWordChar (fun c h => word_of_not_neutral h) c rest hc]
  rfl

theorem tryKormAt_neutral (c : Char) (rest : List Char) (hc : isNeutral c = true) :
    tryKormAt (c :: rest) = none := by
  unfold tryKormAt
  rw [spanPosM_neutral_none isWordChar (fun c h => word_of_not_neutral h) c rest hc]
  rfl

theorem tryPumplyAt_neutral (c : Char) (rest : List Char) (hc : isNeutral c = true) :
    tryPumplyAt (c :: rest) = none := by
  have hl : litM "🔻".toList (c :: rest) = none :=
    litM_neutral_none '🔻' [] (by decide) c rest hc
  unfold tryPumplyAt
  rw [hl]
  rfl

theorem tryDexPAt_neutral (c : Char) (rest : List Char) (hc : isNeutral c = true) :
    tryDexPAt (c :: rest) = none := by
  have hl : litM "dexscreener.com/".toList (c :: rest) = none :=
    litM_neutral_none 'd' "exscreener.com/".toList (by decide) c rest hc
  unfold tryDexPAt
  rw [hl]
  rfl

theorem tryGmgnPAt_neutral (c : Char) (rest : List Char) (hc : isNeutral c = true) :
    tryGmgnPAt (c :: rest) = none := by
  have hl : litM "gmgn.ai/".toList (c :: rest) = none :=
    litM_neutral_none 'g' "mgn.ai/".toList (by decide) c rest hc
  unfold tryGmgnPAt
  rw [hl]
  rfl

theorem searchL_cons (f : List Char → Option β) (c : Char) (cs : List Char) :
    searchL f (c :: cs) =
      match f (c :: cs) with
      | some r => some r
      | none => searchL f cs := rfl

theorem searchL_none_on_neutral (f : List Char → Option β)
    (hnil : f [] = none)
    (hneu : ∀ c rest, isNeutral c = true → f (c :: rest) = none)
    (w : List Char) (hw : ∀ c ∈ w, isNeutral c = true) :
    searchL f w = none := by
  induction w with
  | nil => exact hnil
  | cons c cs ih =>
    rw [searchL_cons, hneu c cs (hw c (by simp))]
    exact ih (fun x hx => hw x (by simp [hx]))

theorem searchL_append_neutral (f : List Char → Option β) (v : List Char)
    (hv : ∀ c ∈ v, isNeutral c = true)
    (happ : ∀ s, f (s ++ v) = f s)
    (hnil : f [] = none)
    (hneu : ∀ c rest, isNeutral c = true → f (c :: rest) = none) :
    ∀ x, searchL f (x ++ v) = searchL f x := by
  intro x
  induction x with
  | nil =>
    rw [List.nil_append, searchL_none_on_neutral f hnil hneu v hv]
    exact hnil.symm
  | cons c cs ih =>
    rw [List.cons_append, searchL_cons, searchL_cons,
        show f (c :: (cs ++ v)) = f ((c :: cs) ++ v) from rfl, happ]
    cases f (c :: cs) with
    | some r => rfl
    | none => exact ih

theorem searchL_prepend_neutral (f : List Char → Option β)
    (hneu : ∀ c rest, isNeutral c = true → f (c :: rest) = none) :
    ∀ u t, (∀ c ∈ u, isNeutral c = true) → searchL f (u ++ t) = searchL f t := by
  intro u
  induction u with
  | nil =>
    intro t _
    rw [List.nil_append]
  | cons c cu ih =>
    intro t hu
    rw [List.cons_append, searchL_cons, hneu c (cu ++ t) (hu c (by simp))]
    exact ih t (fun x hx => hu x (by simp [hx]))

theorem toList_append3 (u m v : String) :
    (u ++ m ++ v).toList = u.toList ++ (m.toList ++ v.toList) := by
  show (u ++ m ++ v).data = u.data ++ (m.data ++ v.data)
  rw [String.data_append, String.data_append, List.append_assoc]

theorem parse_mexc_append (u m v : String)
    (hu : ∀ c ∈ u.toList, isNeutral c = true)
    (hv : ∀ c ∈ v.toList, isNeutral c = true) :
    parse_mexc_tracker_message (u ++ m ++ v) = parse_mexc_tracker_message m := by
  unfold parse_mexc_tracker_message
  rw [toList_append3,
      searchL_prepend_neutral tryMexcAt tryMexcAt_neutral u.toList _ hu,
      searchL_append_neutral tryMexcAt v.toList hv
        (fun s => tryMexcAt_append s v.toList hv) rfl tryMexcAt_neutral m.toList,
      searchL_prepend_neutral tryDexPAt tryDexPAt_neutral u.toList _ hu,
      searchL_append_neutral tryDexPAt v.toList hv
        (fun s => tryDexPAt_append s v.toList hv) rfl tryDexPAt_neutral m.toList]

theorem parse_korm_append (u m v : String)
    (hu : ∀ c ∈ u.toList, isNeutral c = true)
    (hv : ∀ c ∈ v.toList, isNeutral c = true) :
    parse_kormushka_message (u ++ m ++ v) = parse_kormushka_message m := by
  unfold parse_kormushka_message
  rw [toList_append3,
      searchL_prepend_neutral tryKormAt tryKormAt_neutral u.toList _ hu,
      searchL_append_neutral tryKormAt v.toList hv
        (fun s => tryKormAt_append s v.toList hv) rfl tryKormAt_neutral m.toList,
      searchL_prepend_neutral tryGmgnPAt tryGmgnPAt_neutral u.toList _ hu,
      searchL_append_neutral tryGmgnPAt v.toList hv
        (fun s => tryGmgnPAt_append s v.toList hv) rfl tryGmgnPAt_neutral m.toList]

theorem parse_pumply_append (u m v : String)
    (hu : ∀ c ∈ u.toList, isNeutral c = true)
    (hv : ∀ c ∈ v.toList, isNeutral c = true) :
    parse_pumply_message (u ++ m ++ v) = parse_pumply_message m := by
  unfold parse_pumply_message
  rw [toList_append3,
      searchL_prepend_neutral tryPumplyAt tryPumplyAt_neutral u.toList _ hu,
      searchL_append_neutral tryPumplyAt v.toList hv
        (fun s => tryPumplyAt_append s v.toList hv) rfl tryPumplyAt_neutral m.toList,
      searchL_prepend_neutral tryDexPAt tryDexPAt_neutral u.toList _ hu,
      searchL_append_neutral tryDexPAt v.toList hv
        (fun s => tryDexPAt_append s v.toList hv) rfl tryDexPAt_neutral m.toList]

theorem classify_append (u m v : String)
    (hu : ∀ c ∈ u.toList, isNeutral c = true)
    (hv : ∀ c ∈ v.toList, isNeutral c = true) :
    classify_and_extract (u ++ m ++ v) = classify_and_extract m := by
  unfold classify_and_extract
  rw [parse_mexc_append u m v hu hv, parse_korm_append u m v hu hv,
      parse_pumply_append u m v hu hv]

/-- Claim C6 is false as stated: the leading text `AB` contains no
fragment matching any grammar's pattern, yet prepending it to a matching
message changes the extracted ticker, because the leading word characters
merge with the `(\w+)` ticker group of the leftmost match. -/
theorem classify_not_local :
    classify_and_extract "DEXE | 8.17% | Long"
      = some ⟨"DEXE", some "Long", none, "mexc_tracker"⟩ ∧
    searchL tryMexcAt "AB".toList = none ∧
    searchL tryKormAt "AB".toList = none ∧
    searchL tryPumplyAt "AB".toList = none ∧
    (classify_and_extract ("AB" ++ "DEXE | 8.17% | Long" ++ "")).map (fun r => r.ticker)
      = some "ABDEXE" ∧
    ("ABDEXE" : String) ≠ "DEXE" := by
  refine ⟨?_, ?_, ?_, ?_, ?_, ?_⟩ <;> decide

/-- Claim C6 (amended): for every message `m` matching a known grammar
and all leading/trailing texts `u`, `v` drawn from the neutral alphabet
(whitespace and plain punctuation, characters no grammar pattern can
consume — in particular `u` and `v` contain no fragment matching any
pattern), `classify_and_extract` returns the same result, in particular
the same ticker and direction, on `u ++ m ++ v` as on `m`.  Without the
alphabet restriction the claim fails: adjacent word characters merge
into the ticker capture (see the counterexample). -/
theorem classify_locality (u m v : String) (r : TickerResult)
    (hu : ∀ c ∈ u.toList, isNeutral c = true)
    (hv : ∀ c ∈ v.toList, isNeutral c = true)
    (hm : classify_and_extract m = some r) :
    classify_and_extract (u ++ m ++ v) = some r := by
  rw [classify_append u m v hu hv, hm]

/-- Witness for the amended C6: surrounding a mexc-tracker message with
a newline and trailing punctuation leaves ticker and direction
unchanged. -/
theorem classify_locality_witness :
    classify_and_extract ("\n" ++ "DEXE | 8.17% | Long" ++ " ?? ,,")
      = some ⟨"DEXE", some "Long", none, "mexc_tracker"⟩ :=
  classify_locality "\n" "DEXE | 8.17% | Long" " ?? ,,"
    ⟨"DEXE", some "Long", none, "mexc_tracker"⟩
    (by decide) (by decide) (by decide)
